import Mathlib

/-!
Verification of the allocation tracker and the executable architecture prober
from `src/dbg/_global.cpp`.

The allocation tracker (`emalloc`, `efree`, `erealloc`, counter `emalloc_count`)
is embedded with the platform allocator `GlobalAlloc` modelled as an oracle
`g : Nat → Option (List Nat)`: `g size = some raw` means the platform allocator
returned a (non-null) block whose `size` bytes initially hold `raw`;
`g size = none` means the allocation failed (`GlobalAlloc` returned null).
The process-wide counter `emalloc_count` is threaded explicitly as an `Int`.
Pointers handed to `efree` are modelled as `Option (List Nat)` (`none` is the
null pointer).

The architecture prober `GetFileArchitecture` is embedded with the file system
modelled as `Option (List Nat)` (`none`: the `CreateFileW` open fails;
`some contents`: the file's bytes), a flag `readOk` for the outcome of
`ReadFile`, and `junk : Nat → Nat` giving the initial (uninitialized) contents
of the 0x1000-byte stack buffer `data` at the positions `ReadFile` did not
fill.  Field loads from `data` are little-endian byte reads, matching the
layout of `IMAGE_DOS_HEADER` (`e_magic` at offset 0, `e_lfanew` at offset 60)
and `IMAGE_NT_HEADERS` (`Signature` at offset 0, `FileHeader.Machine` at
offset 4).
-/

/-- A fixed reason string used to instantiate theorems at concrete inputs;
the reason argument has no behavioral effect in the source. -/
def rsn : String := "r"

/-- Effect of `memset(a, 0, n)` on a buffer: the first `n` bytes become zero,
bytes past `n` (never exercised by `emalloc`, which allocates exactly `n`
bytes) are unchanged. -/
def memsetZero (buf : List Nat) (n : Nat) : List Nat :=
  List.replicate (min n buf.length) 0 ++ buf.drop n

/-- Outcome of a call to `emalloc`/`erealloc`: a returned buffer together with
the value of `emalloc_count` after the call, a fatal termination
(`MessageBoxW` + `ExitProcess(1)`) with the value of `emalloc_count` at exit,
or an `ASSERT_NONZERO` contract violation. -/
inductive EmallocResult where
  | ok (buf : List Nat) (count : Int)
  | fatal (count : Int)
  | assertFail
  deriving DecidableEq

/-- `emalloc` from `_global.cpp`: asserts the size is nonzero, calls
`GlobalAlloc`, exits the process when that returns null, otherwise zeroes the
buffer with `memset`, increments `emalloc_count` and returns the buffer. -/
def emalloc (g : Nat → Option (List Nat)) (size : Nat) (reason : String)
    (count : Int) : EmallocResult :=
  if size = 0 then EmallocResult.assertFail
  else
    match g size with
    | none => EmallocResult.fatal count
    | some raw => EmallocResult.ok (memsetZero raw size) (count + 1)

/-- `efree` from `_global.cpp`: decrements `emalloc_count` unconditionally and
calls `GlobalFree(ptr)` (no effect on the counter).  Returns the new counter. -/
def efree (ptr : Option (List Nat)) (reason : String) (count : Int) : Int :=
  count - 1

/-- `erealloc` from `_global.cpp`: asserts the size is nonzero, frees `ptr`
with `efree` when it is non-null, then allocates afresh with `emalloc`. -/
def erealloc (g : Nat → Option (List Nat)) (ptr : Option (List Nat))
    (size : Nat) (reason : String) (count : Int) : EmallocResult :=
  if size = 0 then EmallocResult.assertFail
  else
    match ptr with
    | some p => emalloc g size reason (efree (some p) reason count)
    | none => emalloc g size reason count

/-- Modelled from the spec: `reallocate` is release-then-allocate — release
the old buffer first when it is non-null, then allocate a fresh
zero-initialized buffer of the new size.  Spec-side definition, to be compared
with the source-side `erealloc`. -/
def reallocate_spec (g : Nat → Option (List Nat)) (ptr : Option (List Nat))
    (size : Nat) (reason : String) (count : Int) : EmallocResult :=
  match ptr with
  | some p => emalloc g size reason (efree (some p) reason count)
  | none => emalloc g size reason count

/-- Composition `efree(emalloc(n, r), r)` starting from counter `count`:
`some` of the final counter when the allocation succeeds. -/
def allocThenFree (g : Nat → Option (List Nat)) (size : Nat) (reason : String)
    (count : Int) : Option Int :=
  match emalloc g size reason count with
  | EmallocResult.ok buf c => some (efree (some buf) reason c)
  | _ => none

/-- Counter after `k` consecutive `emalloc` calls of the given size with no
releases: `some` of the final counter when every allocation succeeds. -/
def allocK (g : Nat → Option (List Nat)) (size : Nat) (reason : String) :
    Nat → Int → Option Int
  | 0, count => some count
  | Nat.succ k, count =>
    match emalloc g size reason count with
    | EmallocResult.ok _ c => allocK g size reason k c
    | _ => none

/-- The `arch` enumeration from `_global.h` as used by `GetFileArchitecture`. -/
inductive arch where
  | notfound
  | invalid
  | x32
  | x64
  deriving DecidableEq

/-- DOS header magic, the bytes "MZ" read little-endian. -/
def IMAGE_DOS_SIGNATURE : Nat := 0x5A4D

/-- NT header magic, the bytes "PE\x5C0\x5C0" read little-endian. -/
def IMAGE_NT_SIGNATURE : Nat := 0x4550

/-- Machine code of 32-bit x86 images. -/
def IMAGE_FILE_MACHINE_I386 : Nat := 0x14C

/-- Machine code of 64-bit x86-64 images. -/
def IMAGE_FILE_MACHINE_AMD64 : Nat := 0x8664

/-- Little-endian 16-bit load from a byte buffer. -/
def readU16 (data : Nat → Nat) (off : Nat) : Nat :=
  data off + 256 * data (off + 1)

/-- Little-endian 32-bit load from a byte buffer. -/
def readU32 (data : Nat → Nat) (off : Nat) : Nat :=
  data off + 256 * data (off + 1) + 65536 * data (off + 2)
    + 16777216 * data (off + 3)

/-- Number of bytes `GetFileArchitecture` reads: `readSize = sizeof(data)`
(0x1000), lowered to the file size when the file is smaller.  `GetFileSize`
returns a DWORD, hence the reduction mod 2^32. -/
def probeReadSize (contents : List Nat) : Nat :=
  min 4096 (contents.length % 4294967296)

/-- The stack buffer `data` after `ReadFile`: positions below `probeReadSize`
hold the file's bytes, every other position keeps its uninitialized content
`junk`. -/
def probeData (contents : List Nat) (junk : Nat → Nat) (i : Nat) : Nat :=
  if i < probeReadSize contents then contents.getD i 0 % 256 else junk i % 256

/-- The header-classification block of `GetFileArchitecture`, entered after a
successful `ReadFile`: `retval` starts at `invalid`; the DOS magic and the
`e_lfanew` bound are checked, then the NT signature, then the machine field.
The source condition is `(size_t)pdh->e_lfanew < readSize` with `e_lfanew` a
signed 32-bit field: since `readSize ≤ 4096`, a value with the sign bit set
converts (on either pointer width) to a value `≥ 2^31 > readSize`, so the
condition is exactly the unsigned comparison used here. -/
def classify (data : Nat → Nat) (readSize : Nat) : arch :=
  if readU16 data 0 = IMAGE_DOS_SIGNATURE ∧ readU32 data 60 < readSize then
    if readU32 data (readU32 data 60) = IMAGE_NT_SIGNATURE then
      if readU16 data (readU32 data 60 + 4) = IMAGE_FILE_MACHINE_I386 then
        arch.x32
      else if readU16 data (readU32 data 60 + 4) = IMAGE_FILE_MACHINE_AMD64 then
        arch.x64
      else arch.invalid
    else arch.invalid
  else arch.invalid

/-- `GetFileArchitecture` from `_global.cpp`: `retval` starts at `notfound`;
when the open succeeds (`file = some contents`) and `ReadFile` succeeds
(`readOk = true`), the headers in the buffer are classified. -/
def GetFileArchitecture (file : Option (List Nat)) (readOk : Bool)
    (junk : Nat → Nat) : arch :=
  match file with
  | none => arch.notfound
  | some contents =>
    if readOk then classify (probeData contents junk) (probeReadSize contents)
    else arch.notfound

/-- Allocator oracle that always succeeds with a one-byte block holding 7. -/
def g7 : Nat → Option (List Nat) := fun _ => some [7]

/-- Allocator oracle that always fails. -/
def gnone : Nat → Option (List Nat) := fun _ => none

/-- A 64-byte file: valid DOS magic, `e_lfanew = 64` which equals the number
of bytes read, so the bound check fails. -/
def mzTruncated : List Nat :=
  [77, 90] ++ List.replicate 58 0 ++ [64, 0, 0, 0]

/-- A 70-byte well-formed 32-bit PE prefix: DOS magic, `e_lfanew = 64`,
NT signature at 64, machine `0x14C` at 68. -/
def pe32x86 : List Nat :=
  [77, 90] ++ List.replicate 58 0 ++ [64, 0, 0, 0] ++ [80, 69, 0, 0] ++ [76, 1]

/-- The bytes of a plain text file ("hello" and a newline). -/
def helloTxt : List Nat := [104, 101, 108, 108, 111, 10]

/-- A 65-byte file: valid DOS magic, `e_lfanew = 64 = readSize - 1` passes the
bound check, but the NT signature and machine fields extend past the bytes
read, into uninitialized buffer positions. -/
def peTrailing : List Nat :=
  [77, 90] ++ List.replicate 58 0 ++ [64, 0, 0, 0] ++ [80]

/-- Uninitialized-buffer contents that complete `peTrailing` to a 32-bit PE:
positions 65..67 finish the NT signature, 68..69 hold machine `0x14C`. -/
def junkPE : Nat → Nat := fun i =>
  if i = 65 then 69 else if i = 68 then 76 else if i = 69 then 1 else 0

/-- C1: for every size `n > 0` and reason, releasing the buffer just obtained
from a successful `emalloc` restores `emalloc_count` to its value before the
allocation, and `k` successful allocations with no releases raise the counter
by exactly `k`. -/
theorem emalloc_efree_restores_count (g : Nat → Option (List Nat)) (n : Nat)
    (r : String) (st : Int) (raw : List Nat) (h : 0 < n)
    (hg : g n = some raw) :
    allocThenFree g n r st = some st
      ∧ ∀ k : Nat, allocK g n r k st = some (st + k) := by
  have hn : n ≠ 0 := h.ne'
  constructor
  · simp [allocThenFree, emalloc, efree, hn, hg]
  · intro k
    induction k generalizing st with
    | zero => simp [allocK]
    | succ k ih =>
      simp only [allocK, emalloc, hn, if_false, hg]
      rw [ih]
      congr 1
      push_cast
      ring

/-- Witness for C1 at concrete inputs. -/
theorem emalloc_efree_restores_count_witness :
    allocThenFree g7 1 rsn 5 = some 5 ∧ allocK g7 1 rsn 2 5 = some 7 := by
  have h := emalloc_efree_restores_count g7 1 rsn 5 [7] (by decide) rfl
  refine ⟨h.1, ?_⟩
  have h2 := h.2 2
  norm_num at h2
  exact h2

/-- C2: `efree` decrements `emalloc_count` by exactly one for every pointer,
including the null pointer, and an over-release drives the counter negative:
the counter is not corrected. -/
theorem efree_unconditional_decrement (ptr : Option (List Nat)) (r : String)
    (st : Int) :
    efree ptr r st = st - 1 ∧ efree none r st = st - 1 ∧ efree ptr r 0 < 0 := by
  refine ⟨rfl, rfl, ?_⟩
  norm_num [efree]

/-- C3: for every nonzero size, `erealloc` is exactly release-then-allocate:
it equals the spec-side composition in result and counter effect;
`erealloc` on a null pointer is exactly `emalloc`; and on a previously
allocated buffer a successful `erealloc` leaves the counter net unchanged and
returns a zero-filled buffer independent of the old contents. -/
theorem erealloc_is_release_then_allocate (g : Nat → Option (List Nat))
    (ptr : Option (List Nat)) (n : Nat) (r : String) (st : Int) (h : 0 < n) :
    erealloc g ptr n r st = reallocate_spec g ptr n r st
      ∧ erealloc g none n r st = emalloc g n r st
      ∧ ∀ raw buf, g n = some raw →
          erealloc g (some buf) n r st
            = EmallocResult.ok (memsetZero raw n) st := by
  have hn : n ≠ 0 := h.ne'
  refine ⟨?_, ?_, ?_⟩
  · cases ptr <;> simp [erealloc, reallocate_spec, hn]
  · simp [erealloc, hn]
  · intro raw buf hg
    simp [erealloc, emalloc, efree, hn, hg]

/-- Witness for C3 at concrete inputs. -/
theorem erealloc_is_release_then_allocate_witness :
    erealloc g7 (some [9]) 1 rsn 5 = EmallocResult.ok [0] 5 := by
  have h := (erealloc_is_release_then_allocate g7 (some [9]) 1 rsn 5
    (by decide)).2.2 [7] [9] rfl
  simpa [memsetZero] using h

/-- C4: a buffer returned by a successful `emalloc` of a nonzero size `n` is
zero-initialized over its full length: it has `n` bytes and every byte is
zero.  The hypothesis `raw.length = n` is the platform allocator's contract
that the returned block has the requested size. -/
theorem emalloc_zero_initialized (g : Nat → Option (List Nat)) (n : Nat)
    (r : String) (st : Int) (raw : List Nat) (h : 0 < n) (hg : g n = some raw)
    (hlen : raw.length = n) :
    ∃ buf c, emalloc g n r st = EmallocResult.ok buf c
      ∧ buf.length = n ∧ ∀ b ∈ buf, b = 0 := by
  subst hlen
  have hn : raw.length ≠ 0 := h.ne'
  have hm : memsetZero raw raw.length = List.replicate raw.length 0 := by
    simp [memsetZero, List.drop_length]
  exact ⟨List.replicate raw.length 0, st + 1, by simp [emalloc, hn, hg, hm],
    by simp, fun b hb => List.eq_of_mem_replicate hb⟩

/-- Witness for C4 at concrete inputs. -/
theorem emalloc_zero_initialized_witness :
    ∃ buf c, emalloc g7 1 rsn 5 = EmallocResult.ok buf c
      ∧ buf.length = 1 ∧ ∀ b ∈ buf, b = 0 :=
  emalloc_zero_initialized g7 1 rsn 5 [7] (by decide) rfl rfl

/-- C5: for every nonzero size, `emalloc` either succeeds — the platform
allocator returned a block, the counter is incremented and the (non-null)
zeroed buffer is returned — or is fatal: the process terminates with the
counter unchanged, and no other outcome reaches the caller. -/
theorem emalloc_success_or_fatal (g : Nat → Option (List Nat)) (n : Nat)
    (r : String) (st : Int) (h : 0 < n) :
    (∀ raw, g n = some raw →
        emalloc g n r st = EmallocResult.ok (memsetZero raw n) (st + 1))
      ∧ (g n = none → emalloc g n r st = EmallocResult.fatal st) := by
  have hn : n ≠ 0 := h.ne'
  constructor
  · intro raw hg
    simp [emalloc, hn, hg]
  · intro hg
    simp [emalloc, hn, hg]

/-- Witness for C5 at concrete inputs, one per branch. -/
theorem emalloc_success_or_fatal_witness :
    emalloc g7 1 rsn 5 = EmallocResult.ok (memsetZero [7] 1) 6
      ∧ emalloc gnone 1 rsn 5 = EmallocResult.fatal 5 := by
  constructor
  · have h := (emalloc_success_or_fatal g7 1 rsn 5 (by decide)).1 [7] rfl
    norm_num at h
    exact h
  · exact (emalloc_success_or_fatal gnone 1 rsn 5 (by decide)).2 rfl

/-- C6: `GetFileArchitecture` is total over the four classification values:
an open failure gives `notfound`, a read failure gives `notfound`, the result
is always one of the four values, and any result other than `notfound`
requires a successful open and read. -/
theorem getFileArchitecture_total (file : Option (List Nat)) (readOk : Bool)
    (junk : Nat → Nat) :
    GetFileArchitecture none readOk junk = arch.notfound
      ∧ (∀ contents, GetFileArchitecture (some contents) false junk
          = arch.notfound)
      ∧ (GetFileArchitecture file readOk junk = arch.notfound
          ∨ GetFileArchitecture file readOk junk = arch.invalid
          ∨ GetFileArchitecture file readOk junk = arch.x32
          ∨ GetFileArchitecture file readOk junk = arch.x64)
      ∧ (GetFileArchitecture file readOk junk ≠ arch.notfound →
          ∃ contents, file = some contents ∧ readOk = true) := by
  refine ⟨rfl, fun _ => rfl, ?_, ?_⟩
  · cases hval : GetFileArchitecture file readOk junk <;> simp
  · intro hne
    cases file with
    | none => exact absurd rfl hne
    | some contents =>
      cases readOk with
      | false => exact absurd rfl hne
      | true => exact ⟨contents, rfl, rfl⟩

/-- C7: after a successful read, a file whose DOS magic is valid but whose
`e_lfanew` is not strictly below the number of bytes actually read is
classified `invalid`. -/
theorem getFileArchitecture_lfanew_bound (contents : List Nat)
    (junk : Nat → Nat)
    (hmz : readU16 (probeData contents junk) 0 = IMAGE_DOS_SIGNATURE)
    (hlf : ¬ readU32 (probeData contents junk) 60 < probeReadSize contents) :
    GetFileArchitecture (some contents) true junk = arch.invalid := by
  simp [GetFileArchitecture, classify, hmz, hlf]

/-- Witness for C7: a 64-byte file whose `e_lfanew` equals the 64 bytes read. -/
theorem getFileArchitecture_lfanew_bound_witness :
    GetFileArchitecture (some mzTruncated) true (fun _ => 0) = arch.invalid :=
  getFileArchitecture_lfanew_bound mzTruncated (fun _ => 0) (by decide)
    (by decide)

/-- C8: after a successful read, when the DOS magic, the `e_lfanew` bound and
the NT signature checks all pass, the result is decided solely by the machine
field (i386 gives `x32`, AMD64 gives `x64`, anything else leaves `invalid`);
when any of the three checks fails the result is `invalid`. -/
theorem getFileArchitecture_classification (contents : List Nat)
    (junk : Nat → Nat) (d : Nat → Nat) (hd : d = probeData contents junk)
    (rs : Nat) (hrs : rs = probeReadSize contents) :
    (readU16 d 0 = IMAGE_DOS_SIGNATURE → readU32 d 60 < rs →
        readU32 d (readU32 d 60) = IMAGE_NT_SIGNATURE →
        GetFileArchitecture (some contents) true junk
          = (if readU16 d (readU32 d 60 + 4) = IMAGE_FILE_MACHINE_I386 then
              arch.x32
            else if readU16 d (readU32 d 60 + 4) = IMAGE_FILE_MACHINE_AMD64
              then arch.x64
            else arch.invalid))
      ∧ (¬ (readU16 d 0 = IMAGE_DOS_SIGNATURE ∧ readU32 d 60 < rs
            ∧ readU32 d (readU32 d 60) = IMAGE_NT_SIGNATURE) →
          GetFileArchitecture (some contents) true junk = arch.invalid) := by
  subst hd
  subst hrs
  constructor
  · intro h1 h2 h3
    simp [GetFileArchitecture, classify, h1, h2, h3]
  · intro hnot
    by_cases hab : readU16 (probeData contents junk) 0 = IMAGE_DOS_SIGNATURE
        ∧ readU32 (probeData contents junk) 60 < probeReadSize contents
    · have hc : ¬ readU32 (probeData contents junk)
          (readU32 (probeData contents junk) 60) = IMAGE_NT_SIGNATURE :=
        fun hc => hnot ⟨hab.1, hab.2, hc⟩
      simp [GetFileArchitecture, classify, hab.1, hab.2, hc]
    · simp [GetFileArchitecture, classify, hab]

/-- Witness for C8: a well-formed 32-bit PE prefix classifies as `x32`. -/
theorem getFileArchitecture_classification_witness :
    GetFileArchitecture (some pe32x86) true (fun _ => 0) = arch.x32 := by
  have h := (getFileArchitecture_classification pe32x86 (fun _ => 0)
    (probeData pe32x86 (fun _ => 0)) rfl (probeReadSize pe32x86) rfl).1
    (by decide) (by decide) (by decide)
  rw [h]
  decide

/-- C9: after a successful read, a zero-byte file is classified `invalid`
(whatever the uninitialized buffer holds), and so is any readable file whose
DOS magic check fails, such as a plain text file. -/
theorem getFileArchitecture_nonpe_invalid (contents : List Nat)
    (junk : Nat → Nat) :
    GetFileArchitecture (some []) true junk = arch.invalid
      ∧ (readU16 (probeData contents junk) 0 ≠ IMAGE_DOS_SIGNATURE →
          GetFileArchitecture (some contents) true junk = arch.invalid) := by
  constructor
  · simp [GetFileArchitecture, classify, probeReadSize]
  · intro hmz
    simp [GetFileArchitecture, classify, hmz]

/-- Witness for C9: the zero-byte file and a plain text file. -/
theorem getFileArchitecture_nonpe_invalid_witness :
    GetFileArchitecture (some []) true (fun _ => 0) = arch.invalid
      ∧ GetFileArchitecture (some helloTxt) true (fun _ => 0) = arch.invalid :=
  ⟨(getFileArchitecture_nonpe_invalid [] (fun _ => 0)).1,
    (getFileArchitecture_nonpe_invalid helloTxt (fun _ => 0)).2 (by decide)⟩

/-- C10: the guarded-access property fails: there is a file for which the
classification of `GetFileArchitecture` depends on buffer bytes that were
never read from the file — two different uninitialized-buffer contents give
two different results for the same file bytes. -/
theorem getFileArchitecture_reads_unread_bytes :
    ∃ (contents : List Nat) (j1 j2 : Nat → Nat),
      GetFileArchitecture (some contents) true j1 = arch.x32
        ∧ GetFileArchitecture (some contents) true j2 = arch.invalid :=
  ⟨peTrailing, junkPE, fun _ => 0, by decide, by decide⟩
